import Mathlib

/-!
Verification of the Shopping List backend core
(`backend/app/main.py`, `backend/app/services/recipe_scraper.py`).

Quantities are modelled as rationals (the Python code uses floats; all the
properties checked here are exact-arithmetic properties of the algorithms).
Strings are modelled as Lean strings / lists of characters; the Python
`str.lower` is modelled on its ASCII range, which covers the unit vocabulary
and every input these endpoints lowercase.  Fallible Python code (statements
that can raise) is modelled with `Except`.
-/

namespace ShopList

/-! ## Character and string primitives -/

/-- Whitespace test used by the Python `str.split()` / `str.strip()`
(ASCII range: space, tab, newline, carriage return). -/
def isWs (c : Char) : Bool := c.isWhitespace

/-- ASCII restriction of the Python `str.lower` on a single character. -/
def lowerChar (c : Char) : Char :=
  if 65 ≤ c.toNat ∧ c.toNat ≤ 90 then Char.ofNat (c.toNat + 32) else c

/-- The Python `str.lower` (ASCII restriction), on a character list. -/
def lowerStr (s : List Char) : List Char := s.map lowerChar

/-- The Python `str.strip()` with no argument: remove leading and trailing
whitespace. -/
def stripL (s : List Char) : List Char :=
  ((s.dropWhile isWs).reverse.dropWhile isWs).reverse

/-- Helper for `wsTokens`: accumulates the current (reversed) token. -/
def wsTokensAux : List Char → List Char → List (List Char)
  | [], acc => if acc.isEmpty then [] else [acc.reverse]
  | c :: cs, acc =>
    if isWs c then
      if acc.isEmpty then wsTokensAux cs []
      else acc.reverse :: wsTokensAux cs []
    else wsTokensAux cs (c :: acc)

/-- The Python `str.split()` with no argument: split on whitespace runs,
discarding empty pieces. -/
def wsTokens (s : List Char) : List (List Char) := wsTokensAux s []

/-- The Python `str.rstrip(".,")`: remove trailing dots and commas. -/
def rstripDotComma (s : List Char) : List Char :=
  (s.reverse.dropWhile (fun c => c == '.' || c == ',')).reverse

/-- Join a token list with single spaces, the Python `" ".join(tokens)`. -/
def joinSpace (ts : List (List Char)) : List Char := List.intercalate [' '] ts

/-- Value of a digit list, most significant first. -/
def digitsToNat (ds : List Char) : Nat :=
  ds.foldl (fun n c => 10 * n + (c.toNat - 48)) 0

/-! ## The quantity / unit parser (`recipe_scraper.py`) -/

/-- The fixed unit vocabulary `COMMON_UNITS` of `recipe_scraper.py`. -/
def COMMON_UNITS : List (List Char) :=
  [("g" : String).data, ("gram" : String).data, ("grams" : String).data,
   ("kg" : String).data, ("ml" : String).data, ("l" : String).data,
   ("litre" : String).data, ("litres" : String).data, ("liter" : String).data,
   ("liters" : String).data, ("cup" : String).data, ("cups" : String).data,
   ("tsp" : String).data, ("teaspoon" : String).data, ("teaspoons" : String).data,
   ("tbsp" : String).data, ("tablespoon" : String).data, ("tablespoons" : String).data,
   ("ounce" : String).data, ("ounces" : String).data, ("oz" : String).data,
   ("lb" : String).data, ("lbs" : String).data, ("pound" : String).data,
   ("pounds" : String).data, ("clove" : String).data, ("cloves" : String).data,
   ("count" : String).data, ("piece" : String).data, ("pieces" : String).data,
   ("pinch" : String).data]

/-- The overflow test of the Python conversion `float(Fraction(...))`
(`Fraction.__float__` is correctly rounded integer division): rounding to
binary64 overflows, and `OverflowError` is raised, exactly when the
magnitude of the exact value reaches `2 ^ 1024 - 2 ^ 970`, the midpoint
that rounds to infinity (verified against CPython at this boundary). -/
def floatOverflows (q : ℚ) : Prop := (2 : ℚ) ^ 1024 - 2 ^ 970 ≤ |q|

instance (q : ℚ) : Decidable (floatOverflows q) :=
  inferInstanceAs (Decidable ((2 : ℚ) ^ 1024 - 2 ^ 970 ≤ |q|))

/-- The Python expression `float(Fraction(value))` of `_parse_numeric`,
restricted to the inputs this program feeds it (Latin digits, no underscore
separators): an optional sign, then digits with an optional
`/denominator`, or a decimal with an optional exponent.  `.ok none` models
the `ValueError` (no grammar match) and the `ZeroDivisionError` (zero
denominator) — the two exceptions the caller catches.  `.error ()` models
the `OverflowError` that the float conversion raises when the exact value
rounds beyond the binary64 range; the caller does not catch it.  Finite
float results are modelled by the exact rational value. -/
def fracOfChars (s0 : List Char) : Except Unit (Option ℚ) :=
  let s := stripL s0
  let sgnrest : ℚ × List Char :=
    match s with
    | '+' :: t => (1, t)
    | '-' :: t => (-1, t)
    | t => (1, t)
  let sgn := sgnrest.1
  let s1 := sgnrest.2
  let lookDigit : Bool := match s1 with | c :: _ => c.isDigit | [] => false
  let lookDotDigit : Bool := match s1 with | '.' :: c :: _ => c.isDigit | _ => false
  if !(lookDigit || lookDotDigit) then .ok none
  else
    let num := s1.takeWhile Char.isDigit
    let rest := s1.dropWhile Char.isDigit
    match rest with
    | '/' :: r2 =>
      let den := r2.takeWhile Char.isDigit
      let r3 := r2.dropWhile Char.isDigit
      if den.isEmpty || !r3.isEmpty then .ok none
      else if digitsToNat den = 0 then .ok none
      else
        let val := sgn * (digitsToNat num : ℚ) / (digitsToNat den : ℚ)
        if floatOverflows val then .error () else .ok (some val)
    | _ =>
      let decrest : List Char × List Char :=
        match rest with
        | '.' :: r => (r.takeWhile Char.isDigit, r.dropWhile Char.isDigit)
        | r => ([], r)
      let decDigits := decrest.1
      let r2 := decrest.2
      let base : ℚ :=
        (digitsToNat num : ℚ) + (digitsToNat decDigits : ℚ) / ((10 : ℚ) ^ decDigits.length)
      match r2 with
      | [] =>
        if floatOverflows (sgn * base) then .error () else .ok (some (sgn * base))
      | c :: r =>
        if c == 'e' || c == 'E' then
          let esgnrest : Int × List Char :=
            match r with
            | '+' :: t => (1, t)
            | '-' :: t => (-1, t)
            | t => (1, t)
          let ed := esgnrest.2.takeWhile Char.isDigit
          let r5 := esgnrest.2.dropWhile Char.isDigit
          if ed.isEmpty || !r5.isEmpty then .ok none
          else
            let val := sgn * base * (10 : ℚ) ^ (esgnrest.1 * (digitsToNat ed : Int))
            if floatOverflows val then .error () else .ok (some val)
        else .ok none

/-- Match of the regular expression `^(\d+)\s+(\d+/\d+)$` used by the
mixed-number branch of `_parse_numeric`; yields (whole, numerator,
denominator). -/
def mixedMatch (s : List Char) : Option (Nat × Nat × Nat) :=
  let whole := s.takeWhile Char.isDigit
  let r1 := s.dropWhile Char.isDigit
  if whole.isEmpty then none
  else
    let ws := r1.takeWhile isWs
    let r2 := r1.dropWhile isWs
    if ws.isEmpty then none
    else
      let num := r2.takeWhile Char.isDigit
      let r3 := r2.dropWhile Char.isDigit
      if num.isEmpty then none
      else
        match r3 with
        | '/' :: r4 =>
          let den := r4.takeWhile Char.isDigit
          let r5 := r4.dropWhile Char.isDigit
          if den.isEmpty || !r5.isEmpty then none
          else some (digitsToNat whole, digitsToNat num, digitsToNat den)
        | _ => none

/-- The function `_parse_numeric` of `recipe_scraper.py`.  `Except.error`
models an exception escaping the function: the `OverflowError` of
`float(Fraction(value))` (propagated from `fracOfChars` — the `except`
clause catches only `ValueError` and `ZeroDivisionError`), and, in the
mixed-number branch — whose `float(whole) + float(Fraction(fraction))`
runs outside any `try` — the `ZeroDivisionError` of a zero denominator and
the `OverflowError` of an overflowing fraction part.  (`float(whole)` of an
overlong integer literal returns `inf` without raising; that value lies
outside the rational model, and the whole mixed branch is unreachable from
`_split_quantity_unit`, see `mixedMatch_eq_none`.) -/
def parse_numeric (value : List Char) : Except Unit (Option ℚ) :=
  let v := stripL value
  match fracOfChars v with
  | .error e => .error e
  | .ok (some q) => .ok (some q)
  | .ok none =>
    match mixedMatch v with
    | some (w, n, d) =>
      if d = 0 then .error ()
      else if floatOverflows ((n : ℚ) / (d : ℚ)) then .error ()
      else .ok (some ((w : ℚ) + (n : ℚ) / (d : ℚ)))
    | none => .ok none

/-- The final name expression of `_split_quantity_unit`:
`" ".join(remainder_tokens).strip() or text`. -/
def joinName (ts : List (List Char)) (text : List Char) : List Char :=
  let j := stripL (joinSpace ts)
  if j.isEmpty then text else j

/-- The function `_split_quantity_unit` of `recipe_scraper.py`, returning
(quantity, unit, name).  `Except.error` models an exception escaping
`_parse_numeric`. -/
def split_quantity_unit (text : List Char) :
    Except Unit (ℚ × Option (List Char) × List Char) :=
  match wsTokens text with
  | [] => .ok (1, none, [])
  | first :: rest =>
    match parse_numeric first with
    | .error e => .error e
    | .ok none => .ok (1, none, joinName (first :: rest) text)
    | .ok (some q) =>
      match rest with
      | [] => .ok (q, none, joinName [] text)
      | u :: rest2 =>
        if rstripDotComma (lowerStr u) ∈ COMMON_UNITS then
          .ok (q, some u, joinName rest2 text)
        else
          .ok (q, none, joinName rest text)

instance {ε α : Type} [DecidableEq ε] [DecidableEq α] : DecidableEq (Except ε α) :=
  fun a b =>
    match a, b with
    | .error e, .error e' => if h : e = e' then .isTrue (by rw [h]) else .isFalse (by simp [h])
    | .ok v, .ok v' => if h : v = v' then .isTrue (by rw [h]) else .isFalse (by simp [h])
    | .error _, .ok _ => .isFalse (by simp)
    | .ok _, .error _ => .isFalse (by simp)

example : split_quantity_unit ("3 eggs").data = .ok (3, none, ("eggs").data) := by
  simp [split_quantity_unit, parse_numeric, fracOfChars, mixedMatch, wsTokens, wsTokensAux,
    stripL, joinName, joinSpace, List.intercalate, List.intersperse, List.flatten, rstripDotComma, lowerStr, lowerChar, digitsToNat, isWs,
    COMMON_UNITS]
  norm_num [floatOverflows, abs_div]

example : split_quantity_unit ("salt").data = .ok (1, none, ("salt").data) := by rfl

example : split_quantity_unit ("").data = .ok (1, none, []) := by rfl

example : split_quantity_unit ("200 g pasta").data
    = .ok (200, some ("g").data, ("pasta").data) := by
  simp [split_quantity_unit, parse_numeric, fracOfChars, mixedMatch, wsTokens, wsTokensAux,
    stripL, joinName, joinSpace, List.intercalate, List.intersperse, List.flatten, rstripDotComma, lowerStr, lowerChar, digitsToNat, isWs,
    COMMON_UNITS]
  norm_num [floatOverflows, abs_div]

example : split_quantity_unit ("2 1/2 cups flour").data
    = .ok (2, none, ("1/2 cups flour").data) := by
  simp [split_quantity_unit, parse_numeric, fracOfChars, mixedMatch, wsTokens, wsTokensAux,
    stripL, joinName, joinSpace, List.intercalate, List.intersperse, List.flatten, rstripDotComma, lowerStr, lowerChar, digitsToNat, isWs,
    COMMON_UNITS]
  norm_num [floatOverflows, abs_div]

example : parse_numeric ("2 1/2").data = .ok (some (5 / 2)) := by
  simp [parse_numeric, fracOfChars, mixedMatch, stripL, digitsToNat, isWs]
  norm_num [floatOverflows, abs_div]

example : parse_numeric ("1/0").data = .ok none := by rfl

example : parse_numeric ("2.5").data = .ok (some (5 / 2)) := by
  simp [parse_numeric, fracOfChars, mixedMatch, stripL, digitsToNat, isWs]
  norm_num [floatOverflows, abs_div]

/-! ## Totality of the parser -/

theorem wsTokensAux_no_ws (s : List Char) :
    ∀ acc, (∀ c ∈ acc, isWs c = false) →
      ∀ t ∈ wsTokensAux s acc, ∀ c ∈ t, isWs c = false := by
  induction s with
  | nil =>
    intro acc hacc t ht c hc
    by_cases h : acc.isEmpty
    · simp [wsTokensAux, h] at ht
    · simp [wsTokensAux, h] at ht
      subst ht
      exact hacc c (List.mem_reverse.mp hc)
  | cons d s ih =>
    intro acc hacc t ht c hc
    by_cases hd : isWs d
    · by_cases h : acc.isEmpty
      · simp only [wsTokensAux, hd, if_true, h] at ht
        exact ih [] (by simp) t ht c hc
      · simp only [wsTokensAux, hd, if_true, if_neg h, List.mem_cons] at ht
        rcases ht with rfl | ht
        · exact hacc c (List.mem_reverse.mp hc)
        · exact ih [] (by simp) t ht c hc
    · simp only [wsTokensAux, hd, if_false] at ht
      refine ih (d :: acc) ?_ t ht c hc
      intro c' hc'
      rcases List.mem_cons.mp hc' with rfl | hc'
      · simpa using hd
      · exact hacc c' hc'

/-- Every token produced by the Python `str.split()` is free of whitespace. -/
theorem wsTokens_no_ws {s t : List Char} (ht : t ∈ wsTokens s) :
    ∀ c ∈ t, isWs c = false :=
  wsTokensAux_no_ws s [] (by simp) t ht

theorem mem_of_mem_stripL {c : Char} {s : List Char} (h : c ∈ stripL s) : c ∈ s := by
  unfold stripL at h
  rw [List.mem_reverse] at h
  have h1 := (List.dropWhile_sublist (l := (s.dropWhile isWs).reverse) (p := isWs)).subset h
  rw [List.mem_reverse] at h1
  exact (List.dropWhile_sublist (l := s) (p := isWs)).subset h1

theorem takeWhile_isWs_eq_nil {l : List Char} (h : ∀ c ∈ l, isWs c = false) :
    l.takeWhile isWs = [] := by
  cases l with
  | nil => rfl
  | cons c t => simp [List.takeWhile_cons, h c (by simp)]

/-- On whitespace-free input, the mixed-number regular expression of
`_parse_numeric` can never match (its mandatory whitespace group fails). -/
theorem mixedMatch_eq_none {v : List Char} (h : ∀ c ∈ v, isWs c = false) :
    mixedMatch v = none := by
  unfold mixedMatch
  by_cases hw : (v.takeWhile Char.isDigit).isEmpty
  · simp [hw]
  · have hr1 : ∀ c ∈ v.dropWhile Char.isDigit, isWs c = false := fun c hc =>
      h c ((List.dropWhile_sublist (l := v) (p := Char.isDigit)).subset hc)
    simp [hw, takeWhile_isWs_eq_nil hr1]

/-- C7 (code bug).  The parser is not total: on the ingredient line
`"1e400 cups flour"` the leading token `"1e400"` is a valid `Fraction`
numeral whose exact value 10^400 rounds beyond the binary64 range, so
`float(Fraction(value))` inside `_parse_numeric` raises `OverflowError`.
The `except` clause catches only `ValueError` and `ZeroDivisionError`, so
the exception escapes `_parse_numeric` and `_split_quantity_unit` raises
instead of returning the claimed (quantity, unit, name) triple. -/
theorem parser_raises_on_numeric_overflow :
    parse_numeric ("1e400").data = .error () ∧
    split_quantity_unit ("1e400 cups flour").data = .error () := by
  constructor
  · simp [parse_numeric, fracOfChars, mixedMatch, stripL, digitsToNat, isWs]
    norm_num [floatOverflows, abs_div]
  · simp [split_quantity_unit, parse_numeric, fracOfChars, mixedMatch, wsTokens, wsTokensAux,
      stripL, joinName, joinSpace, List.intercalate, List.intersperse, List.flatten,
      rstripDotComma, lowerStr, lowerChar, digitsToNat, isWs, COMMON_UNITS]
    norm_num [floatOverflows, abs_div]

/-- C1 (code bug).  On the input `"2 1/2 cups flour"` the parser returns
quantity 2.0, no unit, and the name `"1/2 cups flour"` — not
(2.5, "cups", "flour") as specified.  The tokenizer splits on whitespace
before `_parse_numeric` runs, so the two-token pattern of the mixed-number
branch of `_parse_numeric` — which does evaluate `"2 1/2"` to 2.5, second
conjunct — can never fire on any token. -/
theorem mixed_number_input_misparsed :
    split_quantity_unit ("2 1/2 cups flour").data
      = .ok (2, none, ("1/2 cups flour").data) ∧
    parse_numeric ("2 1/2").data = .ok (some (5 / 2)) := by
  constructor
  · simp [split_quantity_unit, parse_numeric, fracOfChars, mixedMatch, wsTokens, wsTokensAux,
      stripL, joinName, joinSpace, List.intercalate, List.intersperse, List.flatten,
      rstripDotComma, lowerStr, lowerChar, digitsToNat, isWs, COMMON_UNITS]
    norm_num [floatOverflows, abs_div]
  · simp [parse_numeric, fracOfChars, mixedMatch, stripL, digitsToNat, isWs]
    norm_num [floatOverflows, abs_div]

/-- C10.  Whenever the parser returns a unit, that unit is the second
whitespace token of the input, byte-for-byte (original casing and trailing
punctuation retained); only the membership test against the unit vocabulary
lowercases and strips trailing dots or commas. -/
theorem unit_token_returned_verbatim (text : List Char) (q : ℚ) (u n : List Char)
    (h : split_quantity_unit text = .ok (q, some u, n)) :
    rstripDotComma (lowerStr u) ∈ COMMON_UNITS ∧
    ∃ first rest2, wsTokens text = first :: u :: rest2 := by
  cases htok : wsTokens text with
  | nil =>
    rw [show split_quantity_unit text = .ok (1, none, []) from
      by simp [split_quantity_unit, htok]] at h
    simp at h
  | cons first rest =>
    cases hp : parse_numeric first with
    | error e =>
      rw [show split_quantity_unit text = .error e from
        by simp [split_quantity_unit, htok, hp]] at h
      simp at h
    | ok r =>
      cases r with
      | none =>
        rw [show split_quantity_unit text = .ok (1, none, joinName (first :: rest) text) from
          by simp [split_quantity_unit, htok, hp]] at h
        simp at h
      | some q0 =>
        cases rest with
        | nil =>
          rw [show split_quantity_unit text = .ok (q0, none, joinName [] text) from
            by simp [split_quantity_unit, htok, hp]] at h
          simp at h
        | cons u0 rest2 =>
          by_cases hu : rstripDotComma (lowerStr u0) ∈ COMMON_UNITS
          · rw [show split_quantity_unit text = .ok (q0, some u0, joinName rest2 text) from
              by simp [split_quantity_unit, htok, hp, hu]] at h
            simp only [Except.ok.injEq, Prod.mk.injEq, Option.some.injEq] at h
            obtain ⟨-, hu0, -⟩ := h
            subst hu0
            exact ⟨hu, first, rest2, rfl⟩
          · rw [show split_quantity_unit text = .ok (q0, none, joinName (u0 :: rest2) text) from
              by simp [split_quantity_unit, htok, hp, hu]] at h
            simp at h

/-- Witness for C10: `"2 Cups. flour"` parses with the literal unit token
`"Cups."` — the casing and the trailing dot are preserved in the output. -/
theorem unit_token_returned_verbatim_witness :
    rstripDotComma (lowerStr ("Cups.").data) ∈ COMMON_UNITS ∧
    ∃ first rest2, wsTokens ("2 Cups. flour").data = first :: ("Cups.").data :: rest2 :=
  unit_token_returned_verbatim ("2 Cups. flour").data 2 ("Cups.").data ("flour").data
    (by
      simp [split_quantity_unit, parse_numeric, fracOfChars, mixedMatch, wsTokens, wsTokensAux,
        stripL, joinName, joinSpace, List.intercalate, List.intersperse, List.flatten,
        rstripDotComma, lowerStr, lowerChar, digitsToNat, isWs, COMMON_UNITS]
      norm_num [floatOverflows, abs_div])

/-! ## JSON-LD recipe node location (`recipe_scraper.py`) -/

/-- Parsed JSON values: the data trees `_locate_recipe_node` traverses. -/
inductive Json where
  | null
  | bool (b : Bool)
  | num (q : ℚ)
  | str (s : String)
  | arr (items : List Json)
  | obj (fields : List (String × Json))

/-- The Python `dict.get(key)` on an object node (object keys are unique in
parsed JSON, so first match is the match). -/
def objGet (fields : List (String × Json)) (k : String) : Option Json :=
  (fields.find? (fun p => p.1 == k)).map (fun p => p.2)

/-- Python truthiness of the value returned by a recursive
`_locate_recipe_node` call (`if recipe: return recipe`). -/
def jsonOptTruthy : Option Json → Bool
  | none => false
  | some .null => false
  | some (.bool b) => b
  | some (.num q) => !(decide (q = 0))
  | some (.str s) => !(s == "")
  | some (.arr l) => !l.isEmpty
  | some (.obj f) => !f.isEmpty

/-- The membership test `data.get("@type") in \x7b"Recipe", ["Recipe"]\x7d` of
`_locate_recipe_node`.  Evaluating the set display hashes the list
`["Recipe"]` and raises `TypeError: unhashable type: 'list'` before any
comparison happens (verified against CPython: the set is rebuilt, and the
failure occurs, on every call), so this test never produces a boolean. -/
def recipeTypeTest (tag : Option Json) : Except Unit Bool :=
  let _ := tag
  .error ()

mutual

/-- The function `_locate_recipe_node` of `recipe_scraper.py`.  The `@graph`
branch and the Recipe branch are faithfully transcribed but unreachable:
the type test raises first whenever the node is an object. -/
def locateRecipeNode : Json → Except Unit (Option Json)
  | .obj fields => do
    let isRecipe ← recipeTypeTest (objGet fields "@type")
    if isRecipe then pure (some (.obj fields))
    else locateGraph fields
  | .arr items => locateFirst items
  | _ => pure none

/-- The `if "@graph" in data: for node in data["@graph"]` part of
`_locate_recipe_node` (iterating a non-sequence raises; iterating an object
yields its string keys, none of which is a recipe node). -/
def locateGraph : List (String × Json) → Except Unit (Option Json)
  | [] => pure none
  | (k, v) :: rest =>
    if k == "@graph" then
      match v with
      | .arr nodes => locateFirst nodes
      | .obj _ => pure none
      | .str _ => pure none
      | _ => .error ()
    else locateGraph rest

/-- The `for item in data: ...` loop of `_locate_recipe_node` over a list,
returning the first truthy recursive result. -/
def locateFirst : List Json → Except Unit (Option Json)
  | [] => pure none
  | item :: rest => do
    let r ← locateRecipeNode item
    if jsonOptTruthy r then pure r else locateFirst rest

end

/-- The structured-data block of the claim:
a `@graph` list holding one node of type "Recipe". -/
def sampleGraphBlock : Json :=
  .obj [("@graph", .arr [.obj [("@type", .str "Recipe"), ("name", .str "X"),
    ("recipeIngredient", .arr [.str "200 g pasta"])]])]

/-- C2 (code bug).  Locating the Recipe node in the structured-data block of
the claim raises a TypeError instead of returning the node: the membership
test builds the set `\x7b"Recipe", ["Recipe"]\x7d`, whose list element is
unhashable, so every object node crashes the search (second conjunct: it
crashes on every object whatsoever).  The third conjunct shows the rest of
the claimed pipeline would behave as specified: the ingredient line
`"200 g pasta"` does parse to (200.0, "g", "pasta"). -/
theorem locate_recipe_node_raises_type_error :
    locateRecipeNode sampleGraphBlock = .error () ∧
    (∀ fields, locateRecipeNode (.obj fields) = .error ()) ∧
    split_quantity_unit ("200 g pasta").data = .ok (200, some ("g").data, ("pasta").data) := by
  refine ⟨?_, ?_, ?_⟩
  · simp [sampleGraphBlock, locateRecipeNode, recipeTypeTest, Bind.bind, Except.bind]
  · intro fields
    simp [locateRecipeNode, recipeTypeTest, Bind.bind, Except.bind]
  · simp [split_quantity_unit, parse_numeric, fracOfChars, mixedMatch, wsTokens, wsTokensAux,
      stripL, joinName, joinSpace, List.intercalate, List.intersperse, List.flatten,
      rstripDotComma, lowerStr, lowerChar, digitsToNat, isWs, COMMON_UNITS]
    norm_num [floatOverflows, abs_div]

/-! ## The ingredient normalizer (`main.py`, `normalize_name`) -/

/-- The function `normalize_name` of `main.py`: `name.strip().lower()`. -/
def normalize_name (name : String) : String := ⟨lowerStr (stripL name.data)⟩

theorem toNat_ofNat_valid {n : Nat} (h : n < 55296) : (Char.ofNat n).toNat = n := by
  have hv : n.isValidChar := Or.inl h
  simp [Char.ofNat, hv, Char.ofNatAux, Char.toNat, UInt32.toNat, BitVec.toNat_ofNatLt]

theorem lowerChar_toNat_of_upper {c : Char} (h : 65 ≤ c.toNat ∧ c.toNat ≤ 90) :
    (lowerChar c).toNat = c.toNat + 32 := by
  have hlt : c.toNat + 32 < 55296 := by omega
  simp [lowerChar, h, toNat_ofNat_valid hlt]

theorem isWs_false_of_toNat_ge {c : Char} (h1 : 65 ≤ c.toNat) : isWs c = false := by
  have h32 : c ≠ ' ' := by rintro rfl; exact absurd h1 (by decide)
  have h9 : c ≠ '\t' := by rintro rfl; exact absurd h1 (by decide)
  have h13 : c ≠ '\r' := by rintro rfl; exact absurd h1 (by decide)
  have h10 : c ≠ '\n' := by rintro rfl; exact absurd h1 (by decide)
  simp [isWs, Char.isWhitespace, h32, h9, h13, h10]

/-- Lowercasing a character does not change whether it is whitespace. -/
theorem lowerChar_isWs (c : Char) : isWs (lowerChar c) = isWs c := by
  by_cases h : 65 ≤ c.toNat ∧ c.toNat ≤ 90
  · rw [isWs_false_of_toNat_ge (c := lowerChar c) (by rw [lowerChar_toNat_of_upper h]; omega),
      isWs_false_of_toNat_ge h.1]
  · simp [lowerChar, h]

theorem lowerChar_idem (c : Char) : lowerChar (lowerChar c) = lowerChar c := by
  by_cases h : 65 ≤ c.toNat ∧ c.toNat ≤ 90
  · have hcond : ¬(65 ≤ (lowerChar c).toNat ∧ (lowerChar c).toNat ≤ 90) := by
      rw [lowerChar_toNat_of_upper h]; omega
    exact if_neg hcond
  · have he : lowerChar c = c := if_neg h
    rw [he]; exact if_neg h

theorem dropWhile_dropWhile (p : Char → Bool) (l : List Char) :
    (l.dropWhile p).dropWhile p = l.dropWhile p := by
  induction l with
  | nil => rfl
  | cons c t ih =>
    by_cases h : p c
    · simp [List.dropWhile_cons, h, ih]
    · simp [List.dropWhile_cons, h]

theorem dropWhile_append_last {p : Char → Bool} {a : Char} (ha : p a = false) (l : List Char) :
    (l ++ [a]).dropWhile p = l.dropWhile p ++ [a] := by
  induction l with
  | nil => simp [List.dropWhile_cons, ha]
  | cons c t ih =>
    by_cases h : p c
    · simp [List.dropWhile_cons, h, ih]
    · simp [List.dropWhile_cons, h]

theorem dropWhile_head_false {p : Char → Bool} {l r : List Char} {c : Char}
    (h : l.dropWhile p = c :: r) : p c = false := by
  induction l with
  | nil => simp at h
  | cons d t ih =>
    by_cases hd : p d
    · rw [List.dropWhile_cons, if_pos hd] at h; exact ih h
    · rw [List.dropWhile_cons, if_neg hd] at h
      injection h with h1 h2
      subst h1
      simpa using hd

/-- Removing trailing whitespace from a list with no leading whitespace
leaves a list with no leading whitespace. -/
theorem back_front_stripped {u : List Char} (hu : u.dropWhile isWs = u) :
    ((u.reverse.dropWhile isWs).reverse).dropWhile isWs = (u.reverse.dropWhile isWs).reverse := by
  cases hc : u with
  | nil => simp
  | cons c t =>
    have hcf : isWs c = false := dropWhile_head_false (l := u) (by rw [hu, hc])
    rw [List.reverse_cons, dropWhile_append_last hcf, List.reverse_append]
    simp [List.dropWhile_cons, hcf]

/-- Stripping is idempotent. -/
theorem stripL_stripL (s : List Char) : stripL (stripL s) = stripL s := by
  have hfs : (s.dropWhile isWs).dropWhile isWs = s.dropWhile isWs := dropWhile_dropWhile _ _
  have h1 : (stripL s).dropWhile isWs = stripL s := back_front_stripped hfs
  show (((stripL s).dropWhile isWs).reverse.dropWhile isWs).reverse = stripL s
  rw [h1]
  show (((s.dropWhile isWs).reverse.dropWhile isWs).reverse.reverse.dropWhile isWs).reverse
      = stripL s
  rw [List.reverse_reverse, dropWhile_dropWhile]
  rfl

/-- Stripping commutes with lowercasing. -/
theorem stripL_lowerStr (s : List Char) : stripL (lowerStr s) = lowerStr (stripL s) := by
  have hpred : (isWs ∘ lowerChar) = isWs := funext lowerChar_isWs
  unfold stripL lowerStr
  rw [List.dropWhile_map, hpred, ← List.map_reverse, List.dropWhile_map, hpred,
    ← List.map_reverse]

theorem lowerStr_idem (s : List Char) : lowerStr (lowerStr s) = lowerStr s := by
  unfold lowerStr
  rw [List.map_map]
  exact List.map_congr_left fun c _ => lowerChar_idem c

/-- C9.  The ingredient normalizer `normalize_name` (trim, then lowercase; a
pure and total function) is idempotent: normalizing twice equals normalizing
once, for every string. -/
theorem normalize_name_idempotent (s : String) :
    normalize_name (normalize_name s) = normalize_name s := by
  unfold normalize_name
  apply congrArg String.mk
  show lowerStr (stripL (lowerStr (stripL s.data))) = lowerStr (stripL s.data)
  rw [stripL_lowerStr, stripL_stripL, lowerStr_idem]

/-! ## Data model of the stored records (`models.py`)

Dates (`week_start`, `expires_on`) are opaque comparable values, modelled as
integers.  Primary-key ids are unique across each table, and
`inventory_items.normalized_name` carries the unique constraint
`uq_inventory_normalized_name`; the session-level `one_or_none()` queries
below rely on those constraints exactly as the Python code does. -/

structure InventoryItem where
  id : String
  name : String
  normalized_name : String
  quantity : ℚ
  unit : Option String
  expires_on : Option Int
deriving DecidableEq

structure RecipeIngredient where
  name : String
  normalized_name : String
  quantity : ℚ
  unit : Option String
deriving DecidableEq

structure Recipe where
  id : String
  title : String
  instructions : Option String
  source_url : Option String
  ingredients : List RecipeIngredient
deriving DecidableEq

structure MealPlanEntry where
  day : String
  meal : String
  recipe_id : String
  servings : ℚ
deriving DecidableEq

structure MealPlan where
  id : String
  week_start : Int
  entries : List MealPlanEntry
deriving DecidableEq

/-- The stored state: the three tables the verified endpoints touch. -/
structure DB where
  recipes : List Recipe
  inventory : List InventoryItem
  plans : List MealPlan
deriving DecidableEq

/-- `db.get(Recipe, rid)`: primary-key lookup. -/
def findRecipe (db : DB) (rid : String) : Option Recipe :=
  db.recipes.find? (fun r => r.id == rid)

/-- `db.get(InventoryItem, iid)`: primary-key lookup. -/
def findInventoryById (db : DB) (iid : String) : Option InventoryItem :=
  db.inventory.find? (fun i => i.id == iid)

/-- `db.query(InventoryItem).filter_by(normalized_name=...).one_or_none()`;
sound as `find?` because of the unique constraint on `normalized_name`. -/
def findInventoryByName (inv : List InventoryItem) (nname : String) : Option InventoryItem :=
  inv.find? (fun i => i.normalized_name == nname)

/-- The Python `str.lower` on a `String` (ASCII restriction). -/
def lowerS (s : String) : String := ⟨lowerStr s.data⟩

/-! ## Consumption engine (`main.py`) -/

/-- Response schema `InventoryConsumeResponse`. -/
structure InventoryConsumeResponse where
  id : String
  name : String
  quantity : Option ℚ
  removed : Bool
deriving DecidableEq

/-- The endpoint `consume_inventory` (`POST /inventory/.../consume`):
subtract, delete the row when the result is at or below zero (reporting
`removed` with the pre-deletion name), otherwise persist the reduced
quantity.  Errors are HTTP status codes. -/
def consume_inventory (db : DB) (item_id : String) (qty : ℚ) :
    Except Nat (DB × InventoryConsumeResponse) :=
  match findInventoryById db item_id with
  | none => .error 404
  | some item =>
    let newQty := item.quantity - qty
    if newQty ≤ 0 then
      .ok ({ db with inventory := db.inventory.filter (fun i => !(i.id == item_id)) },
        ⟨item_id, item.name, none, true⟩)
    else
      .ok ({ db with inventory :=
          db.inventory.map (fun i => if i.id == item_id then { i with quantity := newQty } else i) },
        ⟨item.id, item.name, some newQty, false⟩)

/-- The helper `consume_inventory_by_name` of `main.py`: find the inventory
row by normalized name; if absent do nothing; otherwise subtract and floor
the quantity at zero (never delete). -/
def consume_inventory_by_name (inv : List InventoryItem) (nname : String) (qty : ℚ) :
    List InventoryItem :=
  match findInventoryByName inv nname with
  | none => inv
  | some item =>
    inv.map fun i =>
      if i.id == item.id then
        { i with quantity := if i.quantity - qty < 0 then 0 else i.quantity - qty }
      else i

/-- The `one_or_none()` query of `consume_meal`: entries of the plan
`plan_id` whose (lowercased) day and meal match. -/
def entriesFor (db : DB) (plan_id day meal : String) : List MealPlanEntry :=
  ((db.plans.filter (fun p => p.id == plan_id)).flatMap (fun p => p.entries)).filter
    (fun e => e.day == day && e.meal == meal)

/-- The endpoint `consume_meal` (`POST /meal-plans/.../consume`).  The
payload is an untyped dict, so `day` / `meal` may be absent (`none`) or
empty, both rejected with 400.  A uniquely matching entry has its recipe
ingredients depleted one by one via `consume_inventory_by_name`. -/
def consume_meal (db : DB) (plan_id : String) (dayIn mealIn : Option String) :
    Except Nat DB :=
  match dayIn, mealIn with
  | some day, some meal =>
    if day == "" || meal == "" then .error 400
    else
      match entriesFor db plan_id (lowerS day) (lowerS meal) with
      | [] => .error 404
      | [entry] =>
        match findRecipe db entry.recipe_id with
        | none => .error 500
        | some recipe =>
          let newInv :=
            recipe.ingredients.foldl
              (fun inv ing =>
                consume_inventory_by_name inv ing.normalized_name
                  (ing.quantity * entry.servings))
              db.inventory
          .ok { db with inventory := newInv }
      | _ => .error 500
  | _, _ => .error 400

/-! ## Demand aggregation and the shopping list (`main.py`) -/

/-- The matching key of an ingredient:
`(ingredient.normalized_name, ingredient.unit or "")`. -/
def ingredientKey (ing : RecipeIngredient) : String × String :=
  (ing.normalized_name, ing.unit.getD "")

/-- `defaultdict(float)` update `d[k] += q`, keeping insertion order as a
Python dict does: an existing key accumulates in place, a new key is
appended. -/
def addToKey : List ((String × String) × ℚ) → (String × String) → ℚ →
    List ((String × String) × ℚ)
  | [], k, q => [(k, q)]
  | (k', v) :: rest, k, q =>
    if k' = k then (k', v + q) :: rest else (k', v) :: addToKey rest k q

/-- Plain dict update `d[k] = u` (last writer wins), insertion-ordered. -/
def setKey : List ((String × String) × Option String) → (String × String) → Option String →
    List ((String × String) × Option String)
  | [], k, u => [(k, u)]
  | (k', v) :: rest, k, u =>
    if k' = k then (k', u) :: rest else (k', v) :: setKey rest k u

/-- Dict lookup `d.get(k)`. -/
def lookupKey {α : Type} (acc : List ((String × String) × α)) (k : String × String) : Option α :=
  (acc.find? (fun p => p.1 == k)).map (fun p => p.2)

/-- The `required` accumulation loop of `generate_shopping_list`: for every
entry, for every ingredient of its (skipped-if-missing) recipe,
`required[key] += ingredient.quantity * entry.servings`. -/
def demandOfEntries (db : DB) (entries : List MealPlanEntry) :
    List ((String × String) × ℚ) :=
  entries.foldl
    (fun acc entry =>
      match findRecipe db entry.recipe_id with
      | none => acc
      | some recipe =>
        recipe.ingredients.foldl
          (fun acc2 ing => addToKey acc2 (ingredientKey ing) (ing.quantity * entry.servings))
          acc)
    []

/-- The `units` accumulation loop of `generate_shopping_list`:
`units[key] = ingredient.unit`. -/
def unitsOfEntries (db : DB) (entries : List MealPlanEntry) :
    List ((String × String) × Option String) :=
  entries.foldl
    (fun acc entry =>
      match findRecipe db entry.recipe_id with
      | none => acc
      | some recipe =>
        recipe.ingredients.foldl
          (fun acc2 ing => setKey acc2 (ingredientKey ing) ing.unit)
          acc)
    []

/-- The `inventory_totals` loop: `inventory_totals[key] += item.quantity`
over the whole inventory table. -/
def inventoryTotals (inv : List InventoryItem) : List ((String × String) × ℚ) :=
  inv.foldl
    (fun acc item => addToKey acc (item.normalized_name, item.unit.getD "") item.quantity) []

/-- The helper `find_display_name` of `main.py`: an inventory row by
normalized name first, then any recipe-ingredient row, then the normalized
name itself. -/
def find_display_name (nname : String) (db : DB) : String :=
  match findInventoryByName db.inventory nname with
  | some item => item.name
  | none =>
    match (db.recipes.flatMap (fun r => r.ingredients)).find?
        (fun ing => ing.normalized_name == nname) with
    | some ing => ing.name
    | none => nname

/-- Rounding to the nearest integer, ties to even — the Python `round` on
the exact value. -/
def roundHalfEven (q : ℚ) : Int :=
  let f := ⌊q⌋
  let r := q - (f : ℚ)
  if r < 1/2 then f
  else if 1/2 < r then f + 1
  else if f % 2 = 0 then f else f + 1

/-- The Python `round(x, 2)` on the exact value. -/
def round2 (q : ℚ) : ℚ := ((roundHalfEven (100 * q) : ℚ)) / 100

/-- Response schema `ShoppingListItem`. -/
structure ShoppingListItem where
  name : String
  quantity : ℚ
  unit : Option String
deriving DecidableEq

/-- The endpoint `generate_shopping_list` (`GET /shopping-list`): find the
plan for the week (404 when absent), aggregate demand and inventory totals,
and emit one item per demand key whose deficit is strictly positive.
`week_start` has no unique constraint but is unique in every state this
application can create, hence the `one_or_none()` pattern match. -/
def generate_shopping_list (db : DB) (week_start : Int) :
    Except Nat (Int × List ShoppingListItem) :=
  match db.plans.filter (fun p => p.week_start == week_start) with
  | [] => .error 404
  | [plan] =>
    let required := demandOfEntries db plan.entries
    let units := unitsOfEntries db plan.entries
    let totals := inventoryTotals db.inventory
    .ok (week_start,
      required.foldl
        (fun items kv =>
          let available := (lookupKey totals kv.1).getD 0
          let deficit := kv.2 - available
          if 0 < deficit then
            items ++
              [⟨find_display_name kv.1.1 db, round2 deficit, (lookupKey units kv.1).getD none⟩]
          else items)
        [])
  | _ => .error 500

/-! ## Meal-plan creation (`main.py`) -/

/-- Request schema `MealPlanEntryCreate`. -/
structure MealPlanEntryCreate where
  day : String
  meal : String
  recipe_id : String
  servings : ℚ
deriving DecidableEq

/-- Request schema `MealPlanCreate`. -/
structure MealPlanCreate where
  week_start : Int
  entries : List MealPlanEntryCreate
deriving DecidableEq

/-- The entry loop of `create_meal_plan`: each payload entry is resolved
against its recipe (404 on the first missing one) and lowercased into a
`MealPlanEntry`. -/
def buildEntries (db : DB) : List MealPlanEntryCreate → Except Nat (List MealPlanEntry)
  | [] => .ok []
  | e :: rest =>
    match findRecipe db e.recipe_id with
    | none => .error 404
    | some recipe =>
      match buildEntries db rest with
      | .error n => .error n
      | .ok tail => .ok (⟨lowerS e.day, lowerS e.meal, recipe.id, e.servings⟩ :: tail)

/-- The endpoint `create_meal_plan` (`POST /meal-plans`).  The Python
session commits only after the whole entry list is processed; the request
scope (`get_db`) closes the session without committing when an
`HTTPException` escapes, so every mutation buffered before the exception —
including the `plan.entries.clear()` and the flush — is rolled back.  The
embedding therefore returns the unchanged-state error directly: an error
outcome carries no state change, exactly like the rolled-back transaction.
`newId` stands for the generated uuid of a freshly created plan. -/
def create_meal_plan (db : DB) (payload : MealPlanCreate) (newId : String) :
    Except Nat (DB × MealPlan) :=
  match db.plans.filter (fun p => p.week_start == payload.week_start) with
  | [] =>
    match buildEntries db payload.entries with
    | .error n => .error n
    | .ok es =>
      let plan : MealPlan := ⟨newId, payload.week_start, es⟩
      .ok ({ db with plans := db.plans ++ [plan] }, plan)
  | [plan0] =>
    match buildEntries db payload.entries with
    | .error n => .error n
    | .ok es =>
      let plan : MealPlan := { plan0 with entries := es }
      .ok ({ db with plans := db.plans.map (fun p => if p.id == plan0.id then plan else p) },
        plan)
  | _ => .error 500

/-! ## C4: direct consumption deletes at or below zero -/

/-- C4.  Direct consumption of an existing inventory item: when the
requested quantity is at least the current stock the row is deleted and the
response reports `removed` with the pre-deletion display name and no
quantity; when it is less the row persists with the quantity reduced by the
delta and the response carries the new quantity and `removed = false`.
Both outcomes are successes: over-consuming is never an error. -/
theorem direct_consume_deletes_at_or_below_zero (db : DB) (item_id : String) (qty : ℚ)
    (item : InventoryItem) (hfind : findInventoryById db item_id = some item) :
    (item.quantity ≤ qty →
      consume_inventory db item_id qty =
        .ok ({ db with inventory := db.inventory.filter (fun i => !(i.id == item_id)) },
          ⟨item_id, item.name, none, true⟩)) ∧
    (qty < item.quantity →
      consume_inventory db item_id qty =
        .ok ({ db with inventory := db.inventory.map (fun i => if i.id == item_id then { i with quantity := item.quantity - qty } else i) },
          ⟨item.id, item.name, some (item.quantity - qty), false⟩)) := by
  constructor
  · intro hle
    have h0 : item.quantity - qty ≤ 0 := by linarith
    simp [consume_inventory, hfind, h0]
  · intro hlt
    have h0 : ¬(item.quantity - qty ≤ 0) := by linarith
    simp [consume_inventory, hfind, h0]

/-- The inventory state of the direct-consume witness: one loaf of bread. -/
def dbBread : DB := ⟨[], [⟨"i1", "Bread", "bread", 1, some "loaf", none⟩], []⟩

/-- Witness for C4: consuming 5 from a stock of 1 succeeds, deletes the row
and reports the pre-deletion name. -/
theorem direct_consume_deletes_at_or_below_zero_witness :
    consume_inventory dbBread "i1" 5 =
      .ok ({ dbBread with inventory := dbBread.inventory.filter (fun i => !(i.id == "i1")) },
        ⟨"i1", "Bread", none, true⟩) :=
  (direct_consume_deletes_at_or_below_zero dbBread "i1" 5
      ⟨"i1", "Bread", "bread", 1, some "loaf", none⟩ rfl).1 (by norm_num)

/-! ## C3: planned-meal consumption floors at zero and never deletes -/

theorem consume_by_name_ids (inv : List InventoryItem) (nname : String) (qty : ℚ) :
    (consume_inventory_by_name inv nname qty).map (fun i => i.id) = inv.map (fun i => i.id) := by
  unfold consume_inventory_by_name
  cases findInventoryByName inv nname with
  | none => rfl
  | some item =>
    rw [List.map_map]
    refine List.map_congr_left fun i _ => ?_
    by_cases h : (i.id == item.id) = true
    · simp [Function.comp, h]
    · simp [Function.comp, h]

theorem consume_by_name_nonneg {inv : List InventoryItem}
    (h0 : ∀ i ∈ inv, 0 ≤ i.quantity) (nname : String) (qty : ℚ) :
    ∀ i ∈ consume_inventory_by_name inv nname qty, 0 ≤ i.quantity := by
  intro i hi
  unfold consume_inventory_by_name at hi
  cases hf : findInventoryByName inv nname with
  | none =>
    rw [hf] at hi
    exact h0 i hi
  | some item =>
    rw [hf] at hi
    obtain ⟨j, hj, rfl⟩ := List.mem_map.mp hi
    by_cases h : (j.id == item.id) = true
    · simp only [h, if_true]
      by_cases hq : j.quantity - qty < 0
      · simp [hq]
      · simp only [hq, if_false]
        linarith [not_lt.mp hq]
    · simp only [h, if_false]
      exact h0 j hj

theorem foldl_consume_ids (s : ℚ) (ings : List RecipeIngredient) :
    ∀ inv : List InventoryItem,
      ((ings.foldl
        (fun inv ing => consume_inventory_by_name inv ing.normalized_name (ing.quantity * s))
        inv).map (fun i => i.id)) = inv.map (fun i => i.id) := by
  induction ings with
  | nil => intro inv; rfl
  | cons ing rest ih =>
    intro inv
    simp only [List.foldl_cons]
    rw [ih, consume_by_name_ids]

theorem foldl_consume_nonneg (s : ℚ) (ings : List RecipeIngredient) :
    ∀ inv : List InventoryItem, (∀ i ∈ inv, 0 ≤ i.quantity) →
      ∀ i ∈ ings.foldl
        (fun inv ing => consume_inventory_by_name inv ing.normalized_name (ing.quantity * s))
        inv, 0 ≤ i.quantity := by
  induction ings with
  | nil => intro inv h0; exact h0
  | cons ing rest ih =>
    intro inv h0
    simp only [List.foldl_cons]
    exact ih _ (consume_by_name_nonneg h0 _ _)

/-- C3.  A successful planned-meal consumption never deletes or creates an
inventory row (the id sequence is untouched), never drives a quantity below
zero, and an ingredient with no inventory row of its normalized name is
skipped as a no-op (final conjunct), not an error. -/
theorem planned_consume_floors_and_skips (db : DB) (plan_id : String)
    (dayIn mealIn : Option String) (db' : DB)
    (hok : consume_meal db plan_id dayIn mealIn = .ok db') :
    db'.recipes = db.recipes ∧ db'.plans = db.plans ∧
    db'.inventory.map (fun i => i.id) = db.inventory.map (fun i => i.id) ∧
    ((∀ i ∈ db.inventory, 0 ≤ i.quantity) → ∀ i ∈ db'.inventory, 0 ≤ i.quantity) ∧
    (∀ (inv : List InventoryItem) (nname : String) (qty : ℚ),
      (∀ i ∈ inv, i.normalized_name ≠ nname) →
      consume_inventory_by_name inv nname qty = inv) := by
  have hskip : ∀ (inv : List InventoryItem) (nname : String) (qty : ℚ),
      (∀ i ∈ inv, i.normalized_name ≠ nname) →
      consume_inventory_by_name inv nname qty = inv := by
    intro inv nname qty hno
    have hnone : findInventoryByName inv nname = none := by
      unfold findInventoryByName
      rw [List.find?_eq_none]
      intro i hi
      simpa using hno i hi
    simp [consume_inventory_by_name, hnone]
  cases dayIn with
  | none => simp [consume_meal] at hok
  | some day =>
    cases mealIn with
    | none => simp [consume_meal] at hok
    | some meal =>
      by_cases hde : (day == "" || meal == "") = true
      · simp [consume_meal, hde] at hok
      · cases hent : entriesFor db plan_id (lowerS day) (lowerS meal) with
        | nil => simp [consume_meal, hde, hent] at hok
        | cons entry rest =>
          cases rest with
          | cons e2 rest2 => simp [consume_meal, hde, hent] at hok
          | nil =>
            cases hrec : findRecipe db entry.recipe_id with
            | none => simp [consume_meal, hde, hent, hrec] at hok
            | some recipe =>
              simp only [consume_meal, hde, Bool.false_eq_true, if_false, hent, hrec,
                Except.ok.injEq] at hok
              subst hok
              exact ⟨rfl, rfl, foldl_consume_ids entry.servings recipe.ingredients db.inventory,
                fun h0 => foldl_consume_nonneg entry.servings recipe.ingredients db.inventory h0,
                hskip⟩

/-- The Omelette scenario: a recipe needing 6 eggs and 100 g of cheese, an
inventory of 4 eggs and no cheese, and a one-entry plan. -/
def dbOmelette : DB :=
  ⟨[⟨"r1", "Omelette", some "Whisk eggs, cook with cheese.", none,
      [⟨"Eggs", "eggs", 6, some "count"⟩, ⟨"Cheese", "cheese", 100, some "g"⟩]⟩],
    [⟨"i1", "Eggs", "eggs", 4, some "count", none⟩],
    [⟨"p1", 0, [⟨"monday", "dinner", "r1", 1⟩]⟩]⟩

/-- The state after consuming the planned Omelette: eggs floored at zero,
row kept; the cheese ingredient had no row and was skipped. -/
def dbOmeletteAfter : DB :=
  ⟨[⟨"r1", "Omelette", some "Whisk eggs, cook with cheese.", none,
      [⟨"Eggs", "eggs", 6, some "count"⟩, ⟨"Cheese", "cheese", 100, some "g"⟩]⟩],
    [⟨"i1", "Eggs", "eggs", 0, some "count", none⟩],
    [⟨"p1", 0, [⟨"monday", "dinner", "r1", 1⟩]⟩]⟩

/-- Witness for C3: the Omelette consumption succeeds and preserves the
invariants. -/
theorem planned_consume_floors_and_skips_witness :
    dbOmeletteAfter.recipes = dbOmelette.recipes ∧
    dbOmeletteAfter.plans = dbOmelette.plans ∧
    dbOmeletteAfter.inventory.map (fun i => i.id) = dbOmelette.inventory.map (fun i => i.id) ∧
    ((∀ i ∈ dbOmelette.inventory, 0 ≤ i.quantity) →
      ∀ i ∈ dbOmeletteAfter.inventory, 0 ≤ i.quantity) ∧
    (∀ (inv : List InventoryItem) (nname : String) (qty : ℚ),
      (∀ i ∈ inv, i.normalized_name ≠ nname) →
      consume_inventory_by_name inv nname qty = inv) :=
  planned_consume_floors_and_skips dbOmelette "p1" (some "monday") (some "dinner")
    dbOmeletteAfter
    (by
      have hm : lowerS "monday" = "monday" := by decide
      have hd : lowerS "dinner" = "dinner" := by decide
      have h1 : ¬("monday" = "") := by decide
      have h2 : ¬("dinner" = "") := by decide
      have h3 : ¬("eggs" = "cheese") := by decide
      norm_num [consume_meal, entriesFor, hm, hd, h1, h2, h3, dbOmelette, dbOmeletteAfter,
        findRecipe, consume_inventory_by_name, findInventoryByName])

/-! ## C5: the shopping list emits exactly the positive deficits -/

theorem foldl_ite_append {α β : Type} (P : α → Prop) [DecidablePred P] (g : α → β)
    (l : List α) :
    ∀ init : List β,
      l.foldl (fun items kv => if P kv then items ++ [g kv] else items) init
        = init ++ l.filterMap (fun kv => if P kv then some (g kv) else none) := by
  induction l with
  | nil => intro init; simp
  | cons a t ih =>
    intro init
    by_cases h : P a
    · simp [List.foldl_cons, h, ih]
    · simp [List.foldl_cons, h, ih]

/-- C5.  When a plan exists for the week, the generated shopping list is
exactly the demand keys in aggregation order, filtered to those whose
deficit (demand minus available inventory, the latter defaulting to zero)
is strictly positive; each emitted item carries the resolved display name,
the deficit rounded to two decimal places, and the unit recorded for the
key.  Keys with demand at or below availability produce no item. -/
theorem shopping_list_emits_exactly_positive_deficits (db : DB) (w : Int) (plan : MealPlan)
    (hplan : db.plans.filter (fun p => p.week_start == w) = [plan]) :
    generate_shopping_list db w = .ok (w,
      (demandOfEntries db plan.entries).filterMap (fun kv =>
        if 0 < kv.2 - ((lookupKey (inventoryTotals db.inventory) kv.1).getD 0) then
          some ⟨find_display_name kv.1.1 db,
            round2 (kv.2 - ((lookupKey (inventoryTotals db.inventory) kv.1).getD 0)),
            (lookupKey (unitsOfEntries db plan.entries) kv.1).getD none⟩
        else none)) := by
  simp only [generate_shopping_list, hplan]
  rw [foldl_ite_append
    (fun kv => 0 < kv.2 - ((lookupKey (inventoryTotals db.inventory) kv.1).getD 0))
    (fun kv => (⟨find_display_name kv.1.1 db,
      round2 (kv.2 - ((lookupKey (inventoryTotals db.inventory) kv.1).getD 0)),
      (lookupKey (unitsOfEntries db plan.entries) kv.1).getD none⟩ : ShoppingListItem))
    (demandOfEntries db plan.entries) []]
  simp

/-- The reconciliation scenario of the claim: demand of 6 eggs against an
inventory of 4 eggs for the week starting at day 7. -/
def dbEggs : DB :=
  ⟨[⟨"r1", "Omelette", none, none, [⟨"Eggs", "eggs", 6, some "count"⟩]⟩],
    [⟨"i1", "Eggs", "eggs", 4, some "count", none⟩],
    [⟨"p1", 7, [⟨"monday", "dinner", "r1", 1⟩]⟩]⟩

/-- Witness for C5: the list for the eggs scenario holds exactly one item,
two eggs. -/
theorem shopping_list_emits_exactly_positive_deficits_witness :
    generate_shopping_list dbEggs 7 = .ok (7, [⟨"Eggs", 2, some "count"⟩]) := by
  have h := shopping_list_emits_exactly_positive_deficits dbEggs 7
    ⟨"p1", 7, [⟨"monday", "dinner", "r1", 1⟩]⟩ (by decide)
  rw [h]
  have hd : demandOfEntries dbEggs [⟨"monday", "dinner", "r1", 1⟩] = [(("eggs", "count"), 6)] := by
    norm_num [demandOfEntries, addToKey, ingredientKey, findRecipe, dbEggs]
  have hu : unitsOfEntries dbEggs [⟨"monday", "dinner", "r1", 1⟩]
      = [(("eggs", "count"), some "count")] := by
    norm_num [unitsOfEntries, setKey, ingredientKey, findRecipe, dbEggs]
  have ht : inventoryTotals dbEggs.inventory = [(("eggs", "count"), 4)] := by
    norm_num [inventoryTotals, addToKey, dbEggs]
  have hn : find_display_name "eggs" dbEggs = "Eggs" := by
    norm_num [find_display_name, findInventoryByName, dbEggs]
  have hr2 : round2 (2 : ℚ) = 2 := by
    norm_num [round2, roundHalfEven]
  norm_num [hd, hu, ht, hn, hr2, List.filterMap_cons, lookupKey]

/-! ## C8: demand aggregation is additive and order-independent -/

theorem lookupKey_addToKey (k k' : String × String) (q : ℚ) :
    ∀ acc : List ((String × String) × ℚ),
      (lookupKey (addToKey acc k' q) k).getD 0
        = (lookupKey acc k).getD 0 + (if k = k' then q else 0) := by
  intro acc
  induction acc with
  | nil =>
    by_cases h : k = k'
    · subst h
      simp [addToKey, lookupKey]
    · have hb : (k' == k) = false := beq_eq_false_iff_ne.mpr (Ne.symm h)
      simp [addToKey, lookupKey, hb, h]
  | cons p rest ih =>
    obtain ⟨k0, v0⟩ := p
    by_cases h0 : k0 = k'
    · subst h0
      by_cases hk : k = k0
      · subst hk
        simp [addToKey, lookupKey]
      · have hb : (k0 == k) = false := beq_eq_false_iff_ne.mpr (Ne.symm hk)
        simp [addToKey, lookupKey, hb, hk]
    · by_cases hk : k = k0
      · have hne : ¬(k = k') := fun he => h0 (hk.symm.trans he)
        have hb : (k0 == k) = true := beq_iff_eq.mpr hk.symm
        simp [addToKey, lookupKey, h0, hne, hb]
      · have hb : (k0 == k) = false := beq_eq_false_iff_ne.mpr (Ne.symm hk)
        simp only [addToKey, if_neg h0]
        simp only [lookupKey, List.find?_cons, hb]
        simpa [lookupKey] using ih

theorem demand_inner_foldl (s : ℚ) (k : String × String) (ings : List RecipeIngredient) :
    ∀ acc : List ((String × String) × ℚ),
      (lookupKey (ings.foldl
        (fun acc2 ing => addToKey acc2 (ingredientKey ing) (ing.quantity * s)) acc) k).getD 0
        = (lookupKey acc k).getD 0
          + ((ings.filter (fun ing => ingredientKey ing == k)).map
              (fun ing => ing.quantity * s)).sum := by
  induction ings with
  | nil => intro acc; simp
  | cons ing rest ih =>
    intro acc
    simp only [List.foldl_cons]
    rw [ih, lookupKey_addToKey]
    by_cases h : ingredientKey ing = k
    · have hb : (ingredientKey ing == k) = true := beq_iff_eq.mpr h
      rw [if_pos h.symm]
      simp [List.filter_cons, hb]
      ring
    · have hb : (ingredientKey ing == k) = false := beq_eq_false_iff_ne.mpr h
      rw [if_neg (fun he => h he.symm)]
      simp [List.filter_cons, hb]

theorem demand_outer_foldl (db : DB) (k : String × String) (entries : List MealPlanEntry) :
    ∀ acc : List ((String × String) × ℚ),
      (lookupKey (entries.foldl
        (fun acc entry =>
          match findRecipe db entry.recipe_id with
          | none => acc
          | some recipe =>
            recipe.ingredients.foldl
              (fun acc2 ing => addToKey acc2 (ingredientKey ing) (ing.quantity * entry.servings))
              acc) acc) k).getD 0
        = (lookupKey acc k).getD 0
          + (entries.flatMap (fun e =>
              match findRecipe db e.recipe_id with
              | none => []
              | some r => (r.ingredients.filter (fun ing => ingredientKey ing == k)).map
                  (fun ing => ing.quantity * e.servings))).sum := by
  induction entries with
  | nil => intro acc; simp
  | cons e rest ih =>
    intro acc
    simp only [List.foldl_cons]
    cases hr : findRecipe db e.recipe_id with
    | none =>
      rw [ih]
      simp [hr]
    | some r =>
      rw [ih, demand_inner_foldl]
      simp [hr]
      ring

/-- C8, amended.  Under exact (rational) arithmetic, aggregated demand is
additive: for every key, the accumulated demand equals the sum of
`quantity * servings` over every contributing (entry, ingredient) pair —
entries whose recipe reference is missing contribute nothing — and the
demand of every key is invariant under permutation of the entry list.
The program accumulates with binary64 float additions, which realize this
only up to rounding: permuting the entries can change the accumulated
float demand, see `demand_order_dependence_float_counterexample`. -/
theorem demand_additive_and_order_independent (db : DB) (entries : List MealPlanEntry)
    (k : String × String) :
    (lookupKey (demandOfEntries db entries) k).getD 0
      = (entries.flatMap (fun e =>
          match findRecipe db e.recipe_id with
          | none => []
          | some r => (r.ingredients.filter (fun ing => ingredientKey ing == k)).map
              (fun ing => ing.quantity * e.servings))).sum ∧
    (∀ entries' : List MealPlanEntry, List.Perm entries entries' →
      (lookupKey (demandOfEntries db entries') k).getD 0
        = (lookupKey (demandOfEntries db entries) k).getD 0) := by
  have hsum : ∀ es : List MealPlanEntry,
      (lookupKey (demandOfEntries db es) k).getD 0
        = (es.flatMap (fun e =>
            match findRecipe db e.recipe_id with
            | none => []
            | some r => (r.ingredients.filter (fun ing => ingredientKey ing == k)).map
                (fun ing => ing.quantity * e.servings))).sum := by
    intro es
    have h := demand_outer_foldl db k es []
    simpa [demandOfEntries, lookupKey] using h
  refine ⟨hsum entries, ?_⟩
  intro entries' hp
  rw [hsum entries, hsum entries']
  exact (hp.flatMap_right _).sum_eq.symm

/-- Two meal-plan entries referencing two stored recipes, used to witness
order independence. -/
def entA : MealPlanEntry := ⟨"monday", "dinner", "r1", 2⟩

/-- Second entry of the order-independence witness. -/
def entB : MealPlanEntry := ⟨"tuesday", "lunch", "r2", 3⟩

/-- Recipe store for the order-independence witness. -/
def dbTwoRecipes : DB :=
  ⟨[⟨"r1", "A", none, none, [⟨"Eggs", "eggs", 2, some "count"⟩]⟩,
    ⟨"r2", "B", none, none, [⟨"Eggs", "eggs", 5, some "count"⟩]⟩], [], []⟩

/-- Witness for C8: swapping two contributing entries leaves the demand of
their shared key unchanged. -/
theorem demand_additive_and_order_independent_witness :
    (lookupKey (demandOfEntries dbTwoRecipes [entB, entA]) ("eggs", "count")).getD 0
      = (lookupKey (demandOfEntries dbTwoRecipes [entA, entB]) ("eggs", "count")).getD 0 :=
  (demand_additive_and_order_independent dbTwoRecipes [entA, entB] ("eggs", "count")).2
    [entB, entA] (List.Perm.swap entB entA [])

/-! ### Binary64 rounding and the order-dependence counterexample

The Python `+=` on `required[key]` is IEEE-754 binary64 addition.  The
following model rounds an exact rational to the nearest binary64 value
(ties to even), faithfully for the normal finite range, which covers every
value below. -/

/-- Fuel-based floor of the base-2 logarithm (`natLog2Aux n.succ` style
recursion on the fuel). -/
def natLog2Aux : Nat → Nat → Nat
  | 0, _ => 0
  | fuel + 1, n => if n ≤ 1 then 0 else natLog2Aux fuel (n / 2) + 1

/-- Floor of the base-2 logarithm of a natural number (0 at 0 and 1). -/
def natLog2 (n : Nat) : Nat := natLog2Aux n n

/-- Floor of the base-2 logarithm of a positive rational. -/
def qlog2 (q : ℚ) : Int :=
  if 1 ≤ q then (natLog2 ⌊q⌋.toNat : Int)
  else
    let k := natLog2 ⌊1 / q⌋.toNat
    if q = (2 : ℚ) ^ (-(k : Int)) then -(k : Int) else -(k : Int) - 1

/-- Round a rational to the nearest IEEE-754 binary64 value (53-bit
significand, ties to even), returned as an exact rational: the result of a
Python float operation whose exact value is `q`.  Faithful on the normal
finite range. -/
def fl (q : ℚ) : ℚ :=
  if q = 0 then 0
  else
    let a := |q|
    let e : Int := qlog2 a - 52
    let m := roundHalfEven (a / (2 : ℚ) ^ e)
    (if q < 0 then (-1 : ℚ) else 1) * (m : ℚ) * (2 : ℚ) ^ e

/-- The float-accurate `required[key] += x` of `generate_shopping_list`:
the running total is a binary64 value and the addition rounds.  (Adding a
double `x` to the fresh `0.0` of the defaultdict returns `x` exactly.) -/
def addToKeyF : List ((String × String) × ℚ) → (String × String) → ℚ →
    List ((String × String) × ℚ)
  | [], k, q => [(k, q)]
  | (k', v) :: rest, k, q =>
    if k' = k then (k', fl (v + q)) :: rest else (k', v) :: addToKeyF rest k q

/-- `demandOfEntries` with binary64 semantics for the product
`ingredient.quantity * entry.servings` and for the running addition — the
arithmetic the Python code performs. -/
def demandOfEntriesF (db : DB) (entries : List MealPlanEntry) :
    List ((String × String) × ℚ) :=
  entries.foldl
    (fun acc entry =>
      match findRecipe db entry.recipe_id with
      | none => acc
      | some recipe =>
        recipe.ingredients.foldl
          (fun acc2 ing =>
            addToKeyF acc2 (ingredientKey ing) (fl (ing.quantity * entry.servings)))
          acc)
    []

theorem roundHalfEven_eval (q : ℚ) (f m : Int) (hf : ⌊q⌋ = f)
    (hm : (if q - (f : ℚ) < 1 / 2 then f
           else if 1 / 2 < q - (f : ℚ) then f + 1
           else if f % 2 = 0 then f else f + 1) = m) :
    roundHalfEven q = m := by
  simp only [roundHalfEven, hf]
  exact hm

theorem fl_eval_small (q : ℚ) (k : Nat) (e : Int) (m : Int) (r : ℚ)
    (hq0 : 0 < q) (hq1 : ¬(1 ≤ q))
    (hk : natLog2 ⌊1 / q⌋.toNat = k)
    (he : (if q = (2 : ℚ) ^ (-(k : Int)) then -(k : Int) - 52 else -(k : Int) - 1 - 52) = e)
    (hm : roundHalfEven (q / (2 : ℚ) ^ e) = m)
    (hr : (m : ℚ) * (2 : ℚ) ^ e = r) :
    fl q = r := by
  have hq0' : ¬(q = 0) := ne_of_gt hq0
  have hneg : ¬(q < 0) := not_lt.mpr hq0.le
  have habs : |q| = q := abs_of_pos hq0
  have hqlog : qlog2 q = e + 52 := by
    show (if 1 ≤ q then ((natLog2 ⌊q⌋.toNat : Nat) : Int)
      else if q = (2 : ℚ) ^ (-((natLog2 ⌊1 / q⌋.toNat : Nat) : Int))
        then -((natLog2 ⌊1 / q⌋.toNat : Nat) : Int)
        else -((natLog2 ⌊1 / q⌋.toNat : Nat) : Int) - 1) = e + 52
    rw [if_neg hq1, hk]
    by_cases hc : q = (2 : ℚ) ^ (-(k : Int))
    · rw [if_pos hc]
      rw [if_pos hc] at he
      omega
    · rw [if_neg hc]
      rw [if_neg hc] at he
      omega
  show (if q = 0 then 0
    else (if q < 0 then (-1 : ℚ) else 1)
      * ((roundHalfEven (|q| / (2 : ℚ) ^ (qlog2 |q| - 52)) : Int) : ℚ)
      * (2 : ℚ) ^ (qlog2 |q| - 52)) = r
  rw [if_neg hq0', if_neg hneg, habs, hqlog,
    show e + 52 - 52 = e from by omega, hm, one_mul, hr]

/-- Store with three recipes contributing the binary64 values of the
literals 0.1, 0.2 and 0.3 of one shared ingredient key. -/
def dbTenths : DB :=
  ⟨[⟨"r1", "A", none, none, [⟨"X", "x", fl (1 / 10), none⟩]⟩,
    ⟨"r2", "B", none, none, [⟨"X", "x", fl (2 / 10), none⟩]⟩,
    ⟨"r3", "C", none, none, [⟨"X", "x", fl (3 / 10), none⟩]⟩], [], []⟩

/-- First entry of the float counterexample. -/
def entX1 : MealPlanEntry := ⟨"monday", "dinner", "r1", 1⟩

/-- Second entry of the float counterexample. -/
def entX2 : MealPlanEntry := ⟨"tuesday", "dinner", "r2", 1⟩

/-- Third entry of the float counterexample. -/
def entX3 : MealPlanEntry := ⟨"wednesday", "dinner", "r3", 1⟩

/-- Counterexample to C8 as stated, over the arithmetic the program
performs: with the binary64 accumulation of `generate_shopping_list`,
permuting the three entries changes the aggregated demand of the shared
key — 0.1 + 0.2 + 0.3 accumulates to 0.6000000000000001 in one order and
to 0.6 in the other (the respective nearest doubles, as exact rationals:
5404319552844596 / 2^53 versus 5404319552844595 / 2^53). -/
theorem demand_order_dependence_float_counterexample :
    (lookupKey (demandOfEntriesF dbTenths [entX1, entX2, entX3]) ("x", "")).getD 0
      ≠ (lookupKey (demandOfEntriesF dbTenths [entX3, entX2, entX1]) ("x", "")).getD 0 := by
  have h1 : fl (1 / 10) = (3602879701896397 : ℚ) / 2 ^ 55 :=
    fl_eval_small (1 / 10) 3 (-56) 7205759403792794 _ (by norm_num) (by norm_num)
      (by rw [show ⌊1 / ((1 : ℚ) / 10)⌋ = (10 : Int) from by norm_num]; rfl)
      (by norm_num)
      (roundHalfEven_eval _ 7205759403792793 _ (by norm_num) (by norm_num))
      (by norm_num)
  have h2 : fl (2 / 10) = (3602879701896397 : ℚ) / 2 ^ 54 :=
    fl_eval_small (2 / 10) 2 (-55) 7205759403792794 _ (by norm_num) (by norm_num)
      (by rw [show ⌊1 / ((2 : ℚ) / 10)⌋ = (5 : Int) from by norm_num]; rfl)
      (by norm_num)
      (roundHalfEven_eval _ 7205759403792793 _ (by norm_num) (by norm_num))
      (by norm_num)
  have h3 : fl (3 / 10) = (5404319552844595 : ℚ) / 2 ^ 54 :=
    fl_eval_small (3 / 10) 1 (-54) 5404319552844595 _ (by norm_num) (by norm_num)
      (by rw [show ⌊1 / ((3 : ℚ) / 10)⌋ = (3 : Int) from by norm_num]; rfl)
      (by norm_num)
      (roundHalfEven_eval _ 5404319552844595 _ (by norm_num) (by norm_num))
      (by norm_num)
  have hId1 : fl ((3602879701896397 : ℚ) / 2 ^ 55) = (3602879701896397 : ℚ) / 2 ^ 55 :=
    fl_eval_small _ 3 (-56) 7205759403792794 _ (by norm_num) (by norm_num)
      (by rw [show ⌊1 / ((3602879701896397 : ℚ) / 2 ^ 55)⌋ = (9 : Int) from by norm_num]; rfl)
      (by norm_num)
      (roundHalfEven_eval _ 7205759403792794 _ (by norm_num) (by norm_num))
      (by norm_num)
  have hId2 : fl ((3602879701896397 : ℚ) / 2 ^ 54) = (3602879701896397 : ℚ) / 2 ^ 54 :=
    fl_eval_small _ 2 (-55) 7205759403792794 _ (by norm_num) (by norm_num)
      (by rw [show ⌊1 / ((3602879701896397 : ℚ) / 2 ^ 54)⌋ = (4 : Int) from by norm_num]; rfl)
      (by norm_num)
      (roundHalfEven_eval _ 7205759403792794 _ (by norm_num) (by norm_num))
      (by norm_num)
  have hId3 : fl ((5404319552844595 : ℚ) / 2 ^ 54) = (5404319552844595 : ℚ) / 2 ^ 54 :=
    fl_eval_small _ 1 (-54) 5404319552844595 _ (by norm_num) (by norm_num)
      (by rw [show ⌊1 / ((5404319552844595 : ℚ) / 2 ^ 54)⌋ = (3 : Int) from by norm_num]; rfl)
      (by norm_num)
      (roundHalfEven_eval _ 5404319552844595 _ (by norm_num) (by norm_num))
      (by norm_num)
  have hS12 : fl ((3602879701896397 : ℚ) / 2 ^ 55 + 3602879701896397 / 2 ^ 54)
      = (5404319552844596 : ℚ) / 2 ^ 54 :=
    fl_eval_small _ 1 (-54) 5404319552844596 _ (by norm_num) (by norm_num)
      (by rw [show ⌊1 / ((3602879701896397 : ℚ) / 2 ^ 55 + 3602879701896397 / 2 ^ 54)⌋
          = (3 : Int) from by norm_num]; rfl)
      (by norm_num)
      (roundHalfEven_eval _ 5404319552844595 _ (by norm_num) (by norm_num))
      (by norm_num)
  have hS123 : fl ((5404319552844596 : ℚ) / 2 ^ 54 + 5404319552844595 / 2 ^ 54)
      = (5404319552844596 : ℚ) / 2 ^ 53 :=
    fl_eval_small _ 0 (-53) 5404319552844596 _ (by norm_num) (by norm_num)
      (by rw [show ⌊1 / ((5404319552844596 : ℚ) / 2 ^ 54 + 5404319552844595 / 2 ^ 54)⌋
          = (1 : Int) from by norm_num]; rfl)
      (by norm_num)
      (roundHalfEven_eval _ 5404319552844595 _ (by norm_num) (by norm_num))
      (by norm_num)
  have hS32 : fl ((5404319552844595 : ℚ) / 2 ^ 54 + 3602879701896397 / 2 ^ 54)
      = (4503599627370496 : ℚ) / 2 ^ 53 :=
    fl_eval_small _ 1 (-53) 4503599627370496 _ (by norm_num) (by norm_num)
      (by rw [show ⌊1 / ((5404319552844595 : ℚ) / 2 ^ 54 + 3602879701896397 / 2 ^ 54)⌋
          = (2 : Int) from by norm_num]; rfl)
      (by norm_num)
      (roundHalfEven_eval _ 4503599627370496 _ (by norm_num) (by norm_num))
      (by norm_num)
  have hS321 : fl ((4503599627370496 : ℚ) / 2 ^ 53 + 3602879701896397 / 2 ^ 55)
      = (5404319552844595 : ℚ) / 2 ^ 53 :=
    fl_eval_small _ 0 (-53) 5404319552844595 _ (by norm_num) (by norm_num)
      (by rw [show ⌊1 / ((4503599627370496 : ℚ) / 2 ^ 53 + 3602879701896397 / 2 ^ 55)⌋
          = (1 : Int) from by norm_num]; rfl)
      (by norm_num)
      (roundHalfEven_eval _ 5404319552844595 _ (by norm_num) (by norm_num))
      (by norm_num)
  have hb12 : (("r1" : String) == "r2") = false := by decide
  have hb13 : (("r1" : String) == "r3") = false := by decide
  have hb23 : (("r2" : String) == "r3") = false := by decide
  simp only [demandOfEntriesF, dbTenths, entX1, entX2, entX3, findRecipe, ingredientKey,
    List.foldl_cons, List.foldl_nil, List.find?_cons, List.find?_nil, hb12, hb13, hb23,
    beq_self_eq_true, cond_true, cond_false, mul_one, h1, h2, h3, hId1, hId2, hId3,
    addToKeyF, if_true, eq_self_iff_true, hS12, hS123, hS32, hS321, lookupKey,
    List.find?_cons_of_pos, Option.map_some, Option.getD_some]
  norm_num

/-! ## C6: meal-plan creation aborts on a missing recipe -/

theorem buildEntries_error_of_missing (db : DB) :
    ∀ (entries : List MealPlanEntryCreate) (e : MealPlanEntryCreate),
      e ∈ entries → findRecipe db e.recipe_id = none →
      buildEntries db entries = .error 404 := by
  intro entries
  induction entries with
  | nil => intro e he _; simp at he
  | cons e0 rest ih =>
    intro e he hmiss
    rcases List.mem_cons.mp he with rfl | he'
    · simp [buildEntries, hmiss]
    · cases h0 : findRecipe db e0.recipe_id with
      | none => simp [buildEntries, h0]
      | some r0 => simp [buildEntries, h0, ih e he' hmiss]

/-- C6.  If any entry of the payload references a recipe id that is not
stored, meal-plan creation aborts with the not-found outcome 404.  In the
embedding an error outcome returns no new state, which is exactly the
Python behaviour: the `HTTPException` escapes before `db.commit()`, the
request-scoped session closes uncommitted, and every pending mutation —
including the `entries.clear()` of an existing plan — is rolled back, so
prior entries are preserved and nothing is persisted.  The week-uniqueness
hypothesis is the invariant every reachable store satisfies (plans are
created through this very endpoint, which updates in place). -/
theorem meal_plan_create_aborts_on_missing_recipe (db : DB) (payload : MealPlanCreate)
    (newId : String) (e : MealPlanEntryCreate) (he : e ∈ payload.entries)
    (hmiss : findRecipe db e.recipe_id = none)
    (hweek : (db.plans.filter (fun p => p.week_start == payload.week_start)).length ≤ 1) :
    create_meal_plan db payload newId = .error 404 := by
  have hb := buildEntries_error_of_missing db payload.entries e he hmiss
  cases hfil : db.plans.filter (fun p => p.week_start == payload.week_start) with
  | nil => simp [create_meal_plan, hfil, hb]
  | cons p0 rest =>
    cases rest with
    | nil => simp [create_meal_plan, hfil, hb]
    | cons p1 rest2 =>
      rw [hfil] at hweek
      simp [List.length_cons] at hweek

/-- Empty store for the creation-abort witness. -/
def dbEmpty : DB := ⟨[], [], []⟩

/-- Payload whose single entry references an unknown recipe id. -/
def badPayload : MealPlanCreate := ⟨0, [⟨"monday", "dinner", "nope", 1⟩]⟩

/-- Witness for C6: creating a plan whose entry references the unknown
recipe id aborts with 404. -/
theorem meal_plan_create_aborts_on_missing_recipe_witness :
    create_meal_plan dbEmpty badPayload "p-new" = .error 404 :=
  meal_plan_create_aborts_on_missing_recipe dbEmpty badPayload "p-new"
    ⟨"monday", "dinner", "nope", 1⟩ (by simp [badPayload]) rfl (by decide)

end ShopList
